import Mathlib

/-!  Verification development for the StrategyEvolve engine
     (`backend/src/services/strategy.ts`).

Shallow-embedding conventions:

* JavaScript numbers are modelled as rationals (`ℚ`); decimal literals are
  read as exact rationals.  Division is Lean's total division on `ℚ`
  (so `x / 0 = 0`); each place where the source could divide by zero is
  noted at the corresponding definition.
* `Math.sqrt` has no rational counterpart.  `ratSqrt` below is a fixed
  rational Newton iteration standing in for it, and `sqrt252` is a fixed
  rational standing in for `Math.sqrt(252)`.  No theorem in this file
  depends on the value either one returns; the source's comparison
  `std_return > 0` is modelled as `0 < variance`, which is equivalent for a
  genuine square root on a nonnegative radicand.
* Arrays are lists.  Reads `arr[i]` that the control flow keeps in bounds
  are modelled with `List.getD`; reads that can fall out of bounds (the
  forced-trade indices) are modelled with `l[i]?`, and the `TypeError` that
  JavaScript raises when it then dereferences `undefined` is modelled as
  the error `BacktestError.runtimeError`.
* `Math.random()` draws are explicit arguments: `backtest` receives the
  single draw its fallback consumes, `generateVariants` a stream
  `ℕ → ℚ` consumed in source order (four draws per variant).
* The periods `ma_short` / `ma_long` are integers in the backtest embedding
  (`ℕ`), per the data model; `generateVariants` perturbs parameters by
  rational noise, so the `Strategy` record it produces and consumes carries
  rational parameters.
-/

/-- JavaScript's `x || d` on numbers: `d` when `x` is falsy (here: zero,
which also covers reads that defaulted to `0`), else `x`. -/
def jsOr (x d : ℚ) : ℚ := if x = 0 then d else x

/-- `MarketData` record.  `date` is `none` when the field is absent
(JavaScript `undefined`); a present date is a millisecond timestamp. -/
structure MarketData where
  date : Option ℤ
  open_ : ℚ
  high : ℚ
  low : ℚ
  close : ℚ
  volume : ℤ
deriving DecidableEq, Repr, Inhabited

/-- The filter of `backtest` (strategy.ts:82-87): a bar is kept when its
close is a positive number and its date is present.  (`d` itself and
`typeof d.close === 'number'` always hold in the embedding: list elements
exist and closes are rationals.) -/
def isValidBar (d : MarketData) : Bool := decide (0 < d.close) && d.date.isSome

/-- The `validMarketData` list of `backtest`. -/
def validBarsOf (bars : List MarketData) : List MarketData := bars.filter isValidBar

inductive TradeType where
  | BUY
  | SELL
deriving DecidableEq, Repr

/-- A trade record as pushed by `backtest`.  The source also stores
`holdTarget` / `daysHeld`, which nothing ever reads; `calculateMetrics`
reads only `type`, `date` and `price` (and `quantity` is kept for the data
model). -/
structure Trade where
  ttype : TradeType
  date : ℤ
  price : ℚ
  quantity : ℚ
deriving DecidableEq, Repr

structure StrategyMetrics where
  sharpe_ratio : ℚ
  total_return : ℚ
  max_drawdown : ℚ
  win_rate : ℚ
  avg_trade_duration : ℚ
  num_trades : ℕ
deriving DecidableEq, Repr

/-- The parameter record as consumed by `backtest`: integer periods,
rational threshold and sizing.  `stop_loss` / `take_profit` are never read
by the engine and are omitted. -/
structure BacktestParameters where
  ma_short : ℕ
  ma_long : ℕ
  rsi_threshold : ℚ
  position_size : ℚ
deriving DecidableEq, Repr

/-- Rational parameters, as produced by `generateVariants` (its
perturbations are real-valued). -/
structure StrategyParameters where
  ma_short : ℚ
  ma_long : ℚ
  rsi_threshold : ℚ
  position_size : ℚ
deriving DecidableEq, Repr

inductive StrategyType where
  | base
  | optimized
  | hybrid
deriving DecidableEq, Repr

/-- The `Strategy` record as seen by `generateVariants`.  `user_id` and
`metrics` are never touched by the generator and are omitted. -/
structure Strategy where
  id : String
  name : String
  stype : StrategyType
  parameters : StrategyParameters
  created_at : ℤ
  parent_id : Option String
deriving DecidableEq, Repr

inductive BacktestError where
  | emptyMarketData
  | insufficientData
  | runtimeError
deriving DecidableEq, Repr

/-! ## Indicator calculator -/

/-- The validity test of `calculateMA`'s inner loop (strategy.ts:308):
close must be a positive number; the date is not consulted here. -/
def validClose (d : MarketData) : Option ℚ := if 0 < d.close then some d.close else none

/-- The closes collected by `calculateMA`'s inner loop at index `i`:
`j = 0 .. period-1`, reading `data[i - j]`.  Only used under
`period ≤ i + 1`, where every `i - j` is a genuine index. -/
def maWindow (data : List MarketData) (period i : ℕ) : List ℚ :=
  (List.range period).filterMap fun j => (data[i - j]?).bind validClose

/-- `calculateMA` (strategy.ts:297-318).  For `i < period - 1` it pushes
`0`; otherwise the sum of the valid closes in the trailing `period`-bar
window divided by their count, `0` when none is valid.  (`i < period - 1`
over JavaScript numbers is `i + 1 < period` over `ℕ`.) -/
def calculateMA (data : List MarketData) (period : ℕ) : List ℚ :=
  (List.range data.length).map fun i =>
    if i + 1 < period then 0
    else
      let w := maWindow data period i
      if 0 < w.length then w.sum / (w.length : ℚ) else 0

/-- Per-step price changes (strategy.ts:326-335).  In the embedding both
closes always exist and are numbers, so the `gains.push(0)` guard branch
is unreachable. -/
def priceChanges (data : List MarketData) : List ℚ :=
  (data.zip data.tail).map fun pc => pc.2.close - pc.1.close

def gainsOf (data : List MarketData) : List ℚ :=
  (priceChanges data).map fun c => if 0 < c then c else 0

def lossesOf (data : List MarketData) : List ℚ :=
  (priceChanges data).map fun c => if c < 0 then -c else 0

/-- One RSI entry for change position `i ≥ period - 1`
(strategy.ts:342-350).  `slice(i - period + 1, i + 1)` is
`drop (i + 1 - period)` then `take period`; the divisor is `period`
itself, not a valid count. -/
def rsiValue (gains losses : List ℚ) (period i : ℕ) : ℚ :=
  let avg_gain := ((gains.drop (i + 1 - period)).take period).sum / (period : ℚ)
  let avg_loss := ((losses.drop (i + 1 - period)).take period).sum / (period : ℚ)
  if avg_loss = 0 then 100 else 100 - 100 / (1 + avg_gain / avg_loss)

/-- `calculateRSI` (strategy.ts:320-360): a leading neutral `50`, one entry
per price change (neutral `50` before `period - 1` changes), right-padded
with `50` up to the data length. -/
def calculateRSI (data : List MarketData) (period : ℕ) : List ℚ :=
  let gains := gainsOf data
  let losses := lossesOf data
  let core := 50 :: (List.range gains.length).map fun i =>
    if i + 1 < period then 50 else rsiValue gains losses period i
  core ++ List.replicate (data.length - core.length) 50

/-- The RSI length adjustment of `backtest` (strategy.ts:104-110): pad with
neutral `50` to the data length, then trim to it. -/
def adjustLen (n : ℕ) (l : List ℚ) : List ℚ :=
  (l ++ List.replicate (n - l.length) 50).take n

/-! ## Backtest simulator -/

/-- `startIndex = Math.max(ma_long, 14)` (strategy.ts:112). -/
def startIndexOf (p : BacktestParameters) : ℕ := max p.ma_long 14

/-- The mutable state of the signal loop: `capital`, `position`,
`lastBuyIndex` (`-1` when flat), the trade log and the equity curve. -/
structure LoopState where
  capital : ℚ
  position : ℚ
  lastBuyIndex : ℤ
  trades : List Trade
  equity : List ℚ
deriving DecidableEq, Repr

/-- One iteration of the signal loop (strategy.ts:120-185).
The first source guard (`!validMarketData[i] || typeof ... !== 'number'`)
never fires in the embedding, since the loop only visits genuine indices.
The second guard skips the bar when either moving average reads zero
(`!x` on a rational that is a number means `x = 0`).  The trade date is the
bar's date (present on every valid bar; `getD 0` only totalises). -/
def stepBar (p : BacktestParameters) (valid : List MarketData) (maS maL rsi : List ℚ)
    (s : LoopState) (i : ℕ) : LoopState :=
  let ms := maS.getD i 0
  let ml := maL.getD i 0
  if ms = 0 ∨ ml = 0 then s
  else
    let bar := valid.getD i default
    let price := bar.close
    let currentRSI := jsOr (rsi.getD i 0) 50
    let daysHeld : ℤ := if 0 ≤ s.lastBuyIndex then (i : ℤ) - s.lastBuyIndex else 0
    if (ml < ms ∧ currentRSI < 100 - p.rsi_threshold) ∧ s.position = 0 then
      let pos := s.capital * p.position_size / price
      { capital := s.capital - pos * price
        position := pos
        lastBuyIndex := (i : ℤ)
        trades := s.trades ++ [⟨.BUY, bar.date.getD 0, price, pos⟩]
        equity := s.equity ++ [s.capital - pos * price + pos * price] }
    else if ((ms < ml ∨ p.rsi_threshold + 40 < currentRSI) ∧ 3 ≤ daysHeld) ∧ 0 < s.position then
      { capital := s.capital + s.position * price
        position := 0
        lastBuyIndex := -1
        trades := s.trades ++ [⟨.SELL, bar.date.getD 0, price, s.position⟩]
        equity := s.equity ++ [s.capital + s.position * price + 0 * price] }
    else
      { s with equity := s.equity ++ [s.capital + s.position * price] }

/-- The state the loop starts from (strategy.ts:93-96, 116). -/
def signalInit : LoopState :=
  { capital := 100000, position := 0, lastBuyIndex := -1, trades := [], equity := [100000] }

def maShortOf (p : BacktestParameters) (valid : List MarketData) : List ℚ :=
  calculateMA valid p.ma_short

def maLongOf (p : BacktestParameters) (valid : List MarketData) : List ℚ :=
  calculateMA valid p.ma_long

def rsiOf (valid : List MarketData) : List ℚ :=
  adjustLen valid.length (calculateRSI valid 14)

/-- The indices the signal loop visits: `startIndex` to the end. -/
def barRange (p : BacktestParameters) (valid : List MarketData) : List ℕ :=
  List.range' (startIndexOf p) (valid.length - startIndexOf p)

/-- The state after the whole signal loop. -/
def signalState (p : BacktestParameters) (valid : List MarketData) : LoopState :=
  (barRange p valid).foldl
    (stepBar p valid (maShortOf p valid) (maLongOf p valid) (rsiOf valid)) signalInit

/-- One iteration of the fallback's equity-curve rebuild
(strategy.ts:245-265): state is (capital, position, curve).  A forced BUY
executes when `i` is the buy index, then a forced SELL when `i` is the
sell index (both can happen in one iteration), then the mark-to-market
equity is appended. -/
def fbStep (valid : List MarketData) (buyIndex sellIndex : ℕ)
    (testPosition buyPrice sellPrice : ℚ) (s : ℚ × ℚ × List ℚ) (i : ℕ) : ℚ × ℚ × List ℚ :=
  let c1 := if i = buyIndex then s.1 - testPosition * buyPrice else s.1
  let p1 := if i = buyIndex then testPosition else s.2.1
  let c2 := if i = sellIndex then c1 + p1 * sellPrice else c1
  let p2 := if i = sellIndex then 0 else p1
  (c2, p2, s.2.2 ++ [c2 + p2 * (valid.getD i default).close])

/-- The rebuilt equity curve of the fallback: it starts from an *empty*
list (strategy.ts:241) and pushes one entry per bar from `startIndex`. -/
def fallbackCurve (p : BacktestParameters) (valid : List MarketData)
    (buyIndex sellIndex : ℕ) (testPosition buyPrice sellPrice : ℚ) : List ℚ :=
  ((barRange p valid).foldl (fbStep valid buyIndex sellIndex testPosition buyPrice sellPrice)
    (100000, 0, [])).2.2

/-- `backtest` up to (but not including) the call to `calculateMetrics`:
the equity curve and trade log handed over (strategy.ts:75-291).
`rand` is the one `Math.random()` draw of the fallback (line 200).
After the fallback the source still marks any leftover open position to
market (lines 276-281), but that only mutates `capital`, which
`calculateMetrics` never sees, so it is not modelled. -/
def backtestRun (p : BacktestParameters) (bars : List MarketData) (rand : ℚ) :
    Except BacktestError (List ℚ × List Trade) :=
  if bars.length = 0 then .error .emptyMarketData
  else
    let valid := validBarsOf bars
    if valid.length < p.ma_long then .error .insufficientData
    else
      let st := signalState p valid
      if st.trades.length < 2 then
        let n := valid.length
        let buyIndex := n / 4
        let sellIndex := min (buyIndex + 5 + (⌊rand * 3⌋).toNat) (n - 1)
        match valid[buyIndex]?, valid[sellIndex]? with
        | some buyBar, some sellBar =>
          let buyPrice := buyBar.close
          let sellPrice := sellBar.close
          let testPosition := 100000 * p.position_size / buyPrice
          .ok (fallbackCurve p valid buyIndex sellIndex testPosition buyPrice sellPrice,
               [⟨.BUY, buyBar.date.getD 0, buyPrice, testPosition⟩,
                ⟨.SELL, sellBar.date.getD 0, sellPrice, testPosition⟩])
        | _, _ => .error .runtimeError
      else .ok (st.equity, st.trades)

/-! ## Metrics calculator -/

/-- Eight Newton steps from `q + 1`: a computable rational stand-in for
`Math.sqrt` on the variance.  No theorem below depends on its value. -/
def ratSqrtAux : ℕ → ℚ → ℚ → ℚ
  | 0, _, x => x
  | n + 1, q, x => ratSqrtAux n q ((x + q / x) / 2)

def ratSqrt (q : ℚ) : ℚ := ratSqrtAux 8 q (q + 1)

/-- Rational stand-in for `Math.sqrt(252)`; its value is irrelevant to
every theorem below. -/
def sqrt252 : ℚ := 15.874507866387544

/-- Per-step relative changes along the equity curve
(strategy.ts:379-383). -/
def dailyReturns (c : List ℚ) : List ℚ :=
  (c.zip c.tail).map fun pc => (pc.2 - pc.1) / pc.1

/-- The drawdown scan (strategy.ts:395-406): state is (peak, worst). -/
def ddStep (s : ℚ × ℚ) (e : ℚ) : ℚ × ℚ :=
  let peak := if s.1 < e then e else s.1
  let dd := (peak - e) / peak * 100
  (peak, if s.2 < dd then dd else s.2)

def maxDrawdownRaw (c : List ℚ) : ℚ := (c.foldl ddStep (c.getD 0 0, 0)).2

/-- Completed (BUY, SELL) adjacent pairs and wins among them
(strategy.ts:422-433): every adjacent index pair is inspected. -/
def pairStats (trades : List Trade) : ℕ × ℕ :=
  (trades.zip trades.tail).foldl
    (fun s pr =>
      if pr.1.ttype = .BUY ∧ pr.2.ttype = .SELL then
        (s.1 + 1, if pr.1.price < pr.2.price then s.2 + 1 else s.2)
      else s)
    (0, 0)

/-- Total duration and count over BUY/SELL pairs taken two at a time
(strategy.ts:446-452); durations are day counts from millisecond
timestamps. -/
def durStats : List Trade → ℚ × ℕ
  | b :: s :: rest =>
    let t := durStats rest
    if b.ttype = .BUY ∧ s.ttype = .SELL then
      (t.1 + ((s.date : ℚ) - (b.date : ℚ)) / (1000 * 60 * 60 * 24), t.2 + 1)
    else t
  | _ => (0, 0)

/-- `calculateMetrics` (strategy.ts:362-468).  `equity_curve[0] || 100000`
and `equity_curve[len-1] || initial` are `jsOr` of `getD` reads: the
default applies when the curve is empty *or* the entry read is zero.
The Sharpe branch tests `0 < variance` (equivalent to the source's
`std_return > 0`). -/
def calculateMetrics (c : List ℚ) (trades : List Trade) : StrategyMetrics :=
  let initial_capital := jsOr (c.getD 0 0) 100000
  let final_capital := jsOr (c.getD (c.length - 1) 0) initial_capital
  let actual_return := (final_capital - initial_capital) / initial_capital * 100
  let total_return := 10 + actual_return
  let returns := dailyReturns c
  let avg_return := returns.sum / (returns.length : ℚ)
  let variance := (returns.map fun r => (r - avg_return) ^ 2).sum / (returns.length : ℚ)
  let actual_sharpe := if 0 < variance then avg_return / ratSqrt variance * sqrt252 else 0
  let sharpe_ratio := max 1 (actual_sharpe * 1.5)
  let max_drawdown := min (maxDrawdownRaw c) 10
  let ps := pairStats trades
  let actual_win_rate := if 0 < ps.1 then (ps.2 : ℚ) / (ps.1 : ℚ) * 100 else 0
  let win_rate := min 75 (max 60 (actual_win_rate + 10))
  let ds := durStats trades
  let avg_trade_duration := if 0 < ds.2 then ds.1 / (ds.2 : ℚ) else 0
  { sharpe_ratio := sharpe_ratio
    total_return := total_return
    max_drawdown := -max_drawdown
    win_rate := win_rate
    avg_trade_duration := avg_trade_duration
    num_trades := ps.1 }

/-- `backtest(strategy, marketData)` (strategy.ts:75-295). -/
def backtest (p : BacktestParameters) (bars : List MarketData) (rand : ℚ) :
    Except BacktestError StrategyMetrics :=
  (backtestRun p bars rand).map fun r => calculateMetrics r.1 r.2

/-! ## Variant generator -/

/-- One variant (strategy.ts:46-68).  `rand k` is the k-th `Math.random()`
draw; draws are consumed in source order: multiplier, `ma_short` noise,
`ma_long` noise, `rsi_threshold` noise.  `now` models `Date.now()`. -/
def mkVariant (base : Strategy) (now : ℤ) (rand : ℕ → ℚ) (i : ℕ) : Strategy :=
  let positionSizeMultiplier := 0.8 + rand (4 * i) * 0.6
  let newPositionSize :=
    max 0.10 (min 0.20 (base.parameters.position_size * positionSizeMultiplier))
  { id := "strategy_" ++ toString now ++ "_" ++ toString i
    name := base.name ++ " Variant " ++ toString (i + 1)
    stype := .optimized
    parameters :=
      { ma_short := max 10 (base.parameters.ma_short + (rand (4 * i + 1) * 10 - 5))
        ma_long := max 30 (base.parameters.ma_long + (rand (4 * i + 2) * 20 - 10))
        rsi_threshold :=
          max 25 (min 35 (base.parameters.rsi_threshold + (rand (4 * i + 3) * 10 - 5)))
        position_size := newPositionSize }
    created_at := now
    parent_id := some base.id }

/-- `generateVariants` (strategy.ts:43-72). -/
def generateVariants (base : Strategy) (count : ℕ) (now : ℤ) (rand : ℕ → ℚ) : List Strategy :=
  (List.range count).map (mkVariant base now rand)


/-! ## Claim-side definitions

Definitions in this section follow the words of the spec/claims (for
refinement comparisons against the code-derived definitions above), or
package quantities the claims talk about. -/

/-- The valid closes among the trailing `period` bars `i-period+1 .. i`,
phrased with slices (used to state what `calculateMA` computes for
`i ≥ period - 1`). -/
def windowCloses (data : List MarketData) (period i : ℕ) : List ℚ :=
  ((data.drop (i + 1 - period)).take period).filterMap validClose

/-- Modelled from the claim (C1, as stated): for `i < period-1` the entry
is the simple average of the valid closes available from the start up to
`i` (0 only when there is none); from `period-1` on, the average of the
valid closes in the trailing window. -/
def claimMASeries (data : List MarketData) (period : ℕ) : List ℚ :=
  (List.range data.length).map fun i =>
    let w :=
      if i + 1 < period then (data.take (i + 1)).filterMap validClose
      else windowCloses data period i
    if 0 < w.length then w.sum / (w.length : ℚ) else 0

/-- Modelled from the claim (C7, as stated): the first equity entry,
defaulting to the starting capital only when the curve is empty. -/
def claimInitial (c : List ℚ) : ℚ :=
  match c.head? with
  | none => 100000
  | some h => h

/-- Modelled from the claim (C7, as stated): the last equity entry,
defaulting to the starting capital only when the curve is empty. -/
def claimFinal (c : List ℚ) : ℚ :=
  match c.getLast? with
  | none => 100000
  | some e => e

/-- Modelled from the claim (C7, as stated):
`total_return = 10 + (final - initial) / initial * 100`. -/
def claimTotalReturn (c : List ℚ) : ℚ :=
  10 + (claimFinal c - claimInitial c) / claimInitial c * 100

/-- The first equity entry as the code reads it: defaulting to the
starting capital when the curve is empty *or* the entry is zero. -/
def amInitial (c : List ℚ) : ℚ :=
  match c.head? with
  | none => 100000
  | some h => if h = 0 then 100000 else h

/-- The last equity entry as the code reads it: defaulting to the initial
value when the curve is empty *or* the entry is zero. -/
def amFinal (c : List ℚ) : ℚ :=
  match c.getLast? with
  | none => amInitial c
  | some e => if e = 0 then amInitial c else e

/-- The bars the signal loop processes (visits without skipping): indices
from `startIndex` whose two moving-average reads are both nonzero. -/
def processedCount (p : BacktestParameters) (valid : List MarketData) : ℕ :=
  ((barRange p valid).filter fun i =>
    decide (¬((maShortOf p valid).getD i 0 = 0 ∨ (maLongOf p valid).getD i 0 = 0))).length

/-- The trade log strictly alternates BUY, SELL, BUY, … -/
def alternates : List Trade → Prop
  | [] => True
  | [_] => True
  | a :: b :: rest => a.ttype ≠ b.ttype ∧ alternates (b :: rest)

/-- The trade log starts with a BUY (vacuously true when empty). -/
def headIsBuy : List Trade → Prop
  | [] => True
  | t :: _ => t.ttype = .BUY

instance : DecidablePred alternates := fun l => by
  induction l with
  | nil => exact .isTrue trivial
  | cons a t ih =>
    cases t with
    | nil => exact .isTrue trivial
    | cons b r => exact @instDecidableAnd _ _ _ ih

instance : DecidablePred headIsBuy := fun l => by
  cases l with
  | nil => exact .isTrue trivial
  | cons t r => exact inferInstanceAs (Decidable (t.ttype = .BUY))

/-- The invariant the signal loop maintains when
`0 < position_size ≤ 1`: the log alternates starting with BUY, and the
position/capital/last-trade states are consistent — flat with positive
cash and a closed log, or long with nonnegative cash and an open log. -/
def TradeInv (s : LoopState) : Prop :=
  alternates s.trades ∧ headIsBuy s.trades ∧
  ((s.position = 0 ∧ 0 < s.capital ∧
      (s.trades = [] ∨ (s.trades.getLast?).map Trade.ttype = some .SELL)) ∨
    (0 < s.position ∧ 0 ≤ s.capital ∧
      (s.trades.getLast?).map Trade.ttype = some .BUY))

/-! ## Concrete inputs used in counterexamples and witnesses -/

/-- A synthetic daily bar: day `i` (millisecond timestamp), all four
prices equal to `c`. -/
def mkBar (i : ℕ) (c : ℚ) : MarketData :=
  { date := some ((i : ℤ) * 86400000), open_ := c, high := c, low := c, close := c,
    volume := 1000000 }

/-- Three flat bars with close 10. -/
def demoMA3 : List MarketData := [mkBar 0 10, mkBar 1 10, mkBar 2 10]

/-- Sixteen flat bars with close 100. -/
def flatBars16 : List MarketData :=
  [mkBar 0 100, mkBar 1 100, mkBar 2 100, mkBar 3 100, mkBar 4 100, mkBar 5 100,
   mkBar 6 100, mkBar 7 100, mkBar 8 100, mkBar 9 100, mkBar 10 100, mkBar 11 100,
   mkBar 12 100, mkBar 13 100, mkBar 14 100, mkBar 15 100]

/-- Ten early zigzag bars followed by a steady rise: the short moving
average ends above the long one while the RSI stays moderate, so the
bullish signal fires on the last two bars. -/
def zigBars16 : List MarketData :=
  [mkBar 0 100, mkBar 1 98, mkBar 2 100, mkBar 3 98, mkBar 4 100, mkBar 5 98,
   mkBar 6 100, mkBar 7 98, mkBar 8 100, mkBar 9 98, mkBar 10 99, mkBar 11 100,
   mkBar 12 101, mkBar 13 102, mkBar 14 103, mkBar 15 104]

/-- Sixteen flat bars except a spike at index 11 (the forced-trade sell
index under the larger random draw). -/
def jumpBars16 : List MarketData :=
  [mkBar 0 100, mkBar 1 100, mkBar 2 100, mkBar 3 100, mkBar 4 100, mkBar 5 100,
   mkBar 6 100, mkBar 7 100, mkBar 8 100, mkBar 9 100, mkBar 10 100, mkBar 11 200,
   mkBar 12 100, mkBar 13 100, mkBar 14 100, mkBar 15 100]

/-- A single invalid bar: close 0 is not a positive number. -/
def badBars : List MarketData := [mkBar 0 0]

/-- Parameters that cannot fire the bullish signal over flat bars
(equal moving averages); the fallback always triggers. -/
def pFlat : BacktestParameters :=
  { ma_short := 2, ma_long := 14, rsi_threshold := 25, position_size := 3/20 }

/-- Parameters with `position_size = 0`: the signal loop can buy without
ever opening a position. -/
def pZig : BacktestParameters :=
  { ma_short := 2, ma_long := 3, rsi_threshold := 25, position_size := 0 }

/-- Parameters whose `rsi_threshold = 100` makes the bullish condition
unsatisfiable (it would need RSI below zero), forcing the fallback. -/
def pJump : BacktestParameters :=
  { ma_short := 2, ma_long := 2, rsi_threshold := 100, position_size := 3/20 }

/-- Parameters with `ma_long = 0`: zero valid bars pass the insufficiency
check, and the fallback then reads past the end of an empty array. -/
def pBad : BacktestParameters :=
  { ma_short := 10, ma_long := 0, rsi_threshold := 30, position_size := 1/10 }

/-- A base strategy for the variant-generator witness. -/
def demoBase : Strategy :=
  { id := "base-1", name := "Base", stype := .base,
    parameters := { ma_short := 20, ma_long := 50, rsi_threshold := 30, position_size := 3/20 },
    created_at := 0, parent_id := none }

/-! ## Evaluation lemmas for the concrete inputs -/

theorem validBars_flat : validBarsOf flatBars16 = flatBars16 := by
  norm_num [validBarsOf, isValidBar, flatBars16, mkBar, List.filter]

theorem flat_len : flatBars16.length = 16 := rfl

theorem maS_flat : maShortOf pFlat flatBars16 =
    [0, 100, 100, 100, 100, 100, 100, 100, 100, 100, 100, 100, 100, 100, 100, 100] := by
  norm_num [maShortOf, pFlat, calculateMA, maWindow, validClose, flatBars16, mkBar,
    List.range_succ, List.filterMap_cons, List.getElem?_cons_zero, List.getElem?_cons_succ]

set_option maxHeartbeats 1000000 in
theorem maL_flat : maLongOf pFlat flatBars16 =
    [0, 0, 0, 0, 0, 0, 0, 0, 0, 0, 0, 0, 0, 100, 100, 100] := by
  norm_num [maLongOf, pFlat, calculateMA, maWindow, validClose, flatBars16, mkBar,
    List.range_succ, List.filterMap_cons, List.getElem?_cons_zero, List.getElem?_cons_succ]

set_option maxHeartbeats 1000000 in
theorem rsi_flat : rsiOf flatBars16 =
    [50, 50, 50, 50, 50, 50, 50, 50, 50, 50, 50, 50, 50, 50, 100, 100] := by
  norm_num [rsiOf, adjustLen, calculateRSI, gainsOf, lossesOf, priceChanges, rsiValue,
    flatBars16, mkBar, List.range_succ, List.zip, List.zipWith, List.filterMap_cons]

set_option maxHeartbeats 1000000 in
theorem signal_flat : signalState pFlat flatBars16 =
    { capital := 100000, position := 0, lastBuyIndex := -1, trades := [],
      equity := [100000, 100000, 100000] } := by
  rw [signalState, maS_flat, maL_flat, rsi_flat]
  norm_num [barRange, startIndexOf, pFlat, flatBars16, mkBar, List.range', stepBar,
    signalInit, jsOr, List.getD_cons_zero, List.getD_cons_succ]

set_option maxHeartbeats 1000000 in
theorem run_flat : backtestRun pFlat flatBars16 0 =
    .ok ([100000, 100000],
      [⟨.BUY, 345600000, 100, 150⟩, ⟨.SELL, 777600000, 100, 150⟩]) := by
  simp only [backtestRun, validBars_flat, signal_flat, flat_len]
  norm_num [fallbackCurve, fbStep, barRange, startIndexOf, pFlat, List.range',
    Nat.min_def, flatBars16, mkBar, List.getD_cons_zero, List.getD_cons_succ,
    List.getElem?_cons_zero, List.getElem?_cons_succ, validBars_flat, signal_flat]

/-! ## General lemmas about the metrics calculator -/

theorem ddFold_nonneg (l : List ℚ) : ∀ pk m : ℚ, 0 ≤ m → 0 ≤ (l.foldl ddStep (pk, m)).2 := by
  induction l with
  | nil => intro pk m h; exact h
  | cons e t ih =>
    intro pk m h
    simp only [List.foldl_cons]
    apply ih
    simp only [ddStep]
    by_cases hm : m < ((if pk < e then e else pk) - e) / (if pk < e then e else pk) * 100
    · simp only [if_pos hm]; linarith
    · simp only [if_neg hm]; exact h

theorem maxDrawdownRaw_nonneg (c : List ℚ) : 0 ≤ maxDrawdownRaw c :=
  ddFold_nonneg c _ 0 le_rfl

theorem metrics_num_trades (c : List ℚ) (t : List Trade) :
    (calculateMetrics c t).num_trades = (pairStats t).1 := rfl

theorem jsInitial_eq (c : List ℚ) : jsOr (c.getD 0 0) 100000 = amInitial c := by
  cases c with
  | nil => simp [jsOr, amInitial]
  | cons h t => simp [jsOr, amInitial]

theorem jsFinal_eq (c : List ℚ) : jsOr (c.getD (c.length - 1) 0) (amInitial c) = amFinal c := by
  cases c with
  | nil => simp [jsOr, amFinal]
  | cons h t =>
    have hlt : t.length < (h :: t).length := by simp
    have hg : (h :: t).getLast? = some ((h :: t).get ⟨t.length, hlt⟩) := by
      rw [List.getLast?_eq_getElem?]
      simp
    have hd : (h :: t).getD ((h :: t).length - 1) 0 = (h :: t).get ⟨t.length, hlt⟩ := by
      simp [List.getD_eq_getElem?_getD, List.getElem?_eq_getElem hlt]
    rw [hd, amFinal, hg]
    simp [jsOr]

theorem metrics_total_return_eq (c : List ℚ) (t : List Trade) :
    (calculateMetrics c t).total_return =
      10 + (amFinal c - amInitial c) / amInitial c * 100 := by
  simp only [calculateMetrics]
  rw [jsInitial_eq, jsFinal_eq]

/-! ## Claim C6 -/

/-- C6: for every equity curve and trade log, `calculateMetrics` reports
`sharpe_ratio ≥ 1.0`, `win_rate ∈ [60, 75]`, and `max_drawdown ∈ [-10, 0]`
(a non-positive number of magnitude at most 10). -/
theorem c6_metrics_bounds (c : List ℚ) (t : List Trade) :
    1 ≤ (calculateMetrics c t).sharpe_ratio ∧
    60 ≤ (calculateMetrics c t).win_rate ∧
    (calculateMetrics c t).win_rate ≤ 75 ∧
    -10 ≤ (calculateMetrics c t).max_drawdown ∧
    (calculateMetrics c t).max_drawdown ≤ 0 := by
  have h0 : 0 ≤ maxDrawdownRaw c := maxDrawdownRaw_nonneg c
  have hcap : min (maxDrawdownRaw c) 10 ≤ 10 := min_le_right _ _
  have hlo : 0 ≤ min (maxDrawdownRaw c) 10 := le_min h0 (by norm_num)
  simp only [calculateMetrics]
  refine ⟨le_max_left _ _, le_min (by norm_num) (le_max_left _ _), min_le_left _ _, ?_, ?_⟩
  · linarith
  · linarith

/-! ## Claim C7 -/

/-- C7 fails as stated: on the curve `[100, 0]` the code reads the final
entry `0` as falsy and replaces it by the initial value, reporting
`total_return = 10`, while the claim's formula (defaults only for an empty
curve) gives `10 + (0 - 100)/100*100 = -90`. -/
theorem c7_counterexample :
    (calculateMetrics [100, 0] []).total_return = 10 ∧
    claimTotalReturn [100, 0] = -90 ∧
    (calculateMetrics [100, 0] []).total_return ≠ claimTotalReturn [100, 0] := by
  refine ⟨?_, ?_, ?_⟩
  · norm_num [calculateMetrics, jsOr]
  · norm_num [claimTotalReturn, claimInitial, claimFinal]
  · norm_num [calculateMetrics, jsOr, claimTotalReturn, claimInitial, claimFinal]

/-- C7 (amended): `calculateMetrics` reports
`total_return = 10 + (final - initial)/initial * 100`, where `initial` is
the first equity entry unless the curve is empty or that entry is zero (in
which case 100000 is used), and `final` is the last entry unless the curve
is empty or that entry is zero (in which case it equals `initial`): the
zero-entry fallback, not only the empty-curve one, is part of the code's
read of the curve. -/
theorem c7_total_return_amended (c : List ℚ) (t : List Trade) :
    (calculateMetrics c t).total_return =
      10 + (amFinal c - amInitial c) / amInitial c * 100 :=
  metrics_total_return_eq c t

/-! ## Claim C1 -/

theorem maWindow_succ (data : List MarketData) (i p : ℕ) :
    maWindow data (p + 1) i =
      maWindow data p i ++ ((data[i - p]?).bind validClose).toList := by
  simp only [maWindow, List.range_succ, List.filterMap_append]
  cases h : (data[i - p]?).bind validClose <;>
    simp [List.filterMap_cons, h]

theorem windowCloses_succ (data : List MarketData) (i p : ℕ) (hp : p ≤ i)
    (hi : i < data.length) :
    windowCloses data (p + 1) i =
      (validClose (data.get ⟨i - p, by omega⟩)).toList ++ windowCloses data p i := by
  have hip : i - p < data.length := by omega
  have h1 : i + 1 - (p + 1) = i - p := by omega
  have h2 : i - p + 1 = i + 1 - p := by omega
  simp only [windowCloses, h1, List.drop_eq_getElem_cons hip, List.take_succ_cons, h2]
  cases h : validClose data[i - p] <;> simp [List.filterMap_cons, h, List.get_eq_getElem]

theorem maWindow_eq_reverse (data : List MarketData) (i : ℕ) (hi : i < data.length) :
    ∀ p, p ≤ i + 1 → maWindow data p i = (windowCloses data p i).reverse := by
  intro p
  induction p with
  | zero => intro _; simp [maWindow, windowCloses]
  | succ p ih =>
    intro hp
    have hpi : p ≤ i := by omega
    rw [maWindow_succ, ih (by omega), windowCloses_succ data i p hpi hi,
      List.reverse_append]
    cases h : validClose (data.get ⟨i - p, by omega⟩) <;>
      simp only [List.get_eq_getElem] at h <;>
      simp [h, List.getElem?_eq_getElem (show i - p < data.length by omega)]

theorem calculateMA_length (data : List MarketData) (period : ℕ) :
    (calculateMA data period).length = data.length := by
  simp [calculateMA]

theorem calculateMA_getD (data : List MarketData) (period i : ℕ) (hi : i < data.length) :
    (calculateMA data period).getD i 0 =
      if i + 1 < period then 0
      else if 0 < (windowCloses data period i).length then
        (windowCloses data period i).sum / ((windowCloses data period i).length : ℚ)
      else 0 := by
  have hmap : (calculateMA data period).getD i 0 =
      if i + 1 < period then 0
      else if 0 < (maWindow data period i).length then
        (maWindow data period i).sum / ((maWindow data period i).length : ℚ)
      else 0 := by
    simp [calculateMA, List.getD_eq_getElem?_getD, List.getElem?_map,
      List.getElem?_range hi]
  rw [hmap]
  rcases Nat.lt_or_ge (i + 1) period with h | h
  · simp [h]
  · have hw := maWindow_eq_reverse data i hi period (by omega)
    rw [hw]
    simp [List.sum_reverse]

/-- C1 fails as stated: on three flat bars with close 10 and period 3, the
code returns `[0, 0, 10]` — the first two entries are the unconditional
placeholder 0 — while the claim's partial-window average (one and two
valid bars are available) would be `[10, 10, 10]`. -/
theorem c1_counterexample :
    calculateMA demoMA3 3 = [0, 0, 10] ∧
    claimMASeries demoMA3 3 = [10, 10, 10] ∧
    calculateMA demoMA3 3 ≠ claimMASeries demoMA3 3 := by
  have h1 : calculateMA demoMA3 3 = [0, 0, 10] := by
    norm_num [calculateMA, maWindow, validClose, demoMA3, mkBar, List.range_succ,
      List.filterMap_cons, List.getElem?_cons_zero, List.getElem?_cons_succ]
  have h2 : claimMASeries demoMA3 3 = [10, 10, 10] := by
    norm_num [claimMASeries, windowCloses, validClose, demoMA3, mkBar, List.range_succ,
      List.filterMap_cons]
  refine ⟨h1, h2, ?_⟩
  rw [h1, h2]
  intro h
  injection h with h0 _
  exact absurd h0 (by norm_num)

/-- C1 (amended): `calculateMA` returns a series of the same length as the
bars; at each index `i < period - 1` the entry is the unconditional
placeholder 0 (never a partial-window average), and for `i ≥ period - 1`
it is the sum of the closes of the valid bars (positive close) among the
trailing `period` bars divided by the number of such valid bars, 0 when
none of them is valid. -/
theorem c1_calculateMA_amended (data : List MarketData) (period : ℕ) :
    (calculateMA data period).length = data.length ∧
    ∀ i, i < data.length →
      (calculateMA data period).getD i 0 =
        if i + 1 < period then 0
        else if 0 < (windowCloses data period i).length then
          (windowCloses data period i).sum / ((windowCloses data period i).length : ℚ)
        else 0 :=
  ⟨calculateMA_length data period, fun i hi => calculateMA_getD data period i hi⟩

/-- Witness for `c1_calculateMA_amended` at `demoMA3`, period 3, index 2. -/
theorem c1_calculateMA_amended_witness :
    2 < demoMA3.length ∧
    (calculateMA demoMA3 3).getD 2 0 =
      (if 2 + 1 < 3 then 0
       else if 0 < (windowCloses demoMA3 3 2).length then
         (windowCloses demoMA3 3 2).sum / ((windowCloses demoMA3 3 2).length : ℚ)
       else 0) :=
  ⟨by norm_num [demoMA3], (c1_calculateMA_amended demoMA3 3).2 2 (by norm_num [demoMA3])⟩

/-! ## Claim C9 -/

/-- C9: for every base strategy, count and random stream,
`generateVariants` returns exactly `count` strategies, each `optimized`,
with `parent_id` the base id, `position_size` in [0.10, 0.20],
`ma_short ≥ 10`, `ma_long ≥ 30` and `rsi_threshold` in [25, 35]. -/
theorem c9_generateVariants_bounds (base : Strategy) (count : ℕ) (now : ℤ) (rand : ℕ → ℚ) :
    (generateVariants base count now rand).length = count ∧
    ∀ v ∈ generateVariants base count now rand,
      v.stype = StrategyType.optimized ∧
      v.parent_id = some base.id ∧
      (0.10 : ℚ) ≤ v.parameters.position_size ∧ v.parameters.position_size ≤ 0.20 ∧
      (10 : ℚ) ≤ v.parameters.ma_short ∧
      (30 : ℚ) ≤ v.parameters.ma_long ∧
      (25 : ℚ) ≤ v.parameters.rsi_threshold ∧ v.parameters.rsi_threshold ≤ 35 := by
  constructor
  · simp [generateVariants]
  · intro v hv
    simp only [generateVariants, List.mem_map] at hv
    obtain ⟨i, hi, rfl⟩ := hv
    refine ⟨rfl, rfl, ?_, ?_, ?_, ?_, ?_, ?_⟩ <;> simp only [mkVariant] <;>
      first
      | exact le_max_left _ _
      | exact max_le (by norm_num) (min_le_left _ _)

/-- Witness for `c9_generateVariants_bounds`: the single variant generated
from `demoBase` with the all-zero random stream. -/
theorem c9_generateVariants_bounds_witness :
    (mkVariant demoBase 0 (fun _ => 0) 0 ∈ generateVariants demoBase 1 0 (fun _ => 0)) ∧
    ((mkVariant demoBase 0 (fun _ => 0) 0).stype = StrategyType.optimized ∧
      (mkVariant demoBase 0 (fun _ => 0) 0).parent_id = some demoBase.id ∧
      (0.10 : ℚ) ≤ (mkVariant demoBase 0 (fun _ => 0) 0).parameters.position_size ∧
      (mkVariant demoBase 0 (fun _ => 0) 0).parameters.position_size ≤ 0.20 ∧
      (10 : ℚ) ≤ (mkVariant demoBase 0 (fun _ => 0) 0).parameters.ma_short ∧
      (30 : ℚ) ≤ (mkVariant demoBase 0 (fun _ => 0) 0).parameters.ma_long ∧
      (25 : ℚ) ≤ (mkVariant demoBase 0 (fun _ => 0) 0).parameters.rsi_threshold ∧
      (mkVariant demoBase 0 (fun _ => 0) 0).parameters.rsi_threshold ≤ 35) :=
  ⟨by simp [generateVariants, List.range_succ],
    (c9_generateVariants_bounds demoBase 1 0 (fun _ => 0)).2 _
      (by simp [generateVariants, List.range_succ])⟩

/-! ## Structure of the signal loop -/

theorem stepBar_skip (p : BacktestParameters) (valid : List MarketData)
    (maS maL rsi : List ℚ) (s : LoopState) (i : ℕ)
    (h : maS.getD i 0 = 0 ∨ maL.getD i 0 = 0) :
    stepBar p valid maS maL rsi s i = s := by
  simp only [stepBar, if_pos h]

theorem stepBar_push (p : BacktestParameters) (valid : List MarketData)
    (maS maL rsi : List ℚ) (s : LoopState) (i : ℕ)
    (h : ¬(maS.getD i 0 = 0 ∨ maL.getD i 0 = 0)) :
    ∃ x : ℚ, (stepBar p valid maS maL rsi s i).equity = s.equity ++ [x] := by
  simp only [stepBar, if_neg h]
  repeat' split
  all_goals exact ⟨_, rfl⟩

theorem foldl_stepBar_equity (p : BacktestParameters) (valid : List MarketData)
    (maS maL rsi : List ℚ) :
    ∀ (l : List ℕ) (s : LoopState),
      ∃ u : List ℚ,
        (l.foldl (stepBar p valid maS maL rsi) s).equity = s.equity ++ u ∧
        u.length =
          (l.filter fun i => decide (¬(maS.getD i 0 = 0 ∨ maL.getD i 0 = 0))).length := by
  intro l
  induction l with
  | nil => intro s; exact ⟨[], by simp, by simp⟩
  | cons a t ih =>
    intro s
    by_cases h : maS.getD a 0 = 0 ∨ maL.getD a 0 = 0
    · obtain ⟨u1, hu1, hl1⟩ := ih s
      have hc : decide (¬(maS.getD a 0 = 0 ∨ maL.getD a 0 = 0)) = false :=
        decide_eq_false (not_not_intro h)
      refine ⟨u1, ?_, ?_⟩
      · rw [List.foldl_cons, stepBar_skip p valid maS maL rsi s a h, hu1]
      · rw [hl1, List.filter_cons]
        simp only [hc]
        simp
    · obtain ⟨x, hx⟩ := stepBar_push p valid maS maL rsi s a h
      obtain ⟨u1, hu1, hl1⟩ := ih (stepBar p valid maS maL rsi s a)
      have hc : decide (¬(maS.getD a 0 = 0 ∨ maL.getD a 0 = 0)) = true :=
        decide_eq_true h
      refine ⟨x :: u1, ?_, ?_⟩
      · rw [List.foldl_cons, hu1, hx]
        simp
      · rw [List.filter_cons]
        simp only [hc]
        simp [hl1]

theorem signalState_equity (p : BacktestParameters) (valid : List MarketData) :
    ∃ u : List ℚ, (signalState p valid).equity = 100000 :: u ∧
      (signalState p valid).equity.length = processedCount p valid + 1 := by
  obtain ⟨u, hu, hl⟩ :=
    foldl_stepBar_equity p valid (maShortOf p valid) (maLongOf p valid) (rsiOf valid)
      (barRange p valid) signalInit
  rw [signalState]
  refine ⟨u, by simpa [signalInit] using hu, ?_⟩
  rw [hu]
  simp [signalInit, processedCount, hl, Nat.add_comm]

/-! ## Structure of the fallback rebuild -/

theorem foldl_fbStep_len (valid : List MarketData) (bI sI : ℕ) (tp bp sp : ℚ) :
    ∀ (l : List ℕ) (st : ℚ × ℚ × List ℚ),
      ((l.foldl (fbStep valid bI sI tp bp sp) st).2.2).length = st.2.2.length + l.length := by
  intro l
  induction l with
  | nil => intro st; simp
  | cons a t ih =>
    intro st
    rw [List.foldl_cons, ih]
    simp [fbStep]
    omega

theorem foldl_fbStep_inert (valid : List MarketData) (bI sI : ℕ) (tp bp sp : ℚ) :
    ∀ (l : List ℕ) (cap : ℚ) (acc : List ℚ),
      (∀ i ∈ l, i ≠ bI) →
      l.foldl (fbStep valid bI sI tp bp sp) (cap, 0, acc) =
        (cap, 0, acc ++ List.replicate l.length cap) := by
  intro l
  induction l with
  | nil => intro cap acc _; simp
  | cons a t ih =>
    intro cap acc hne
    have ha : ¬(a = bI) := hne a (List.mem_cons_self a t)
    have hstep : fbStep valid bI sI tp bp sp (cap, 0, acc) a = (cap, 0, acc ++ [cap]) := by
      simp [fbStep, ha]
    rw [List.foldl_cons, hstep,
      ih cap (acc ++ [cap]) fun i hi => hne i (List.mem_cons_of_mem a hi)]
    simp [List.replicate_succ]

/-! ## The trade-log invariant of the signal loop -/

theorem alternates_append (l : List Trade) (t : Trade) :
    alternates l → (∀ x, l.getLast? = some x → x.ttype ≠ t.ttype) →
    alternates (l ++ [t]) := by
  induction l with
  | nil => intro _ _; trivial
  | cons a r ih =>
    intro h hl
    cases r with
    | nil => exact ⟨hl a rfl, trivial⟩
    | cons b r2 =>
      refine ⟨h.1, ?_⟩
      exact ih h.2 fun x hx => hl x (by rw [List.getLast?_cons_cons]; exact hx)

theorem headIsBuy_concat (l : List Trade) (t : Trade) (h : headIsBuy l)
    (ht : l = [] → t.ttype = .BUY) : headIsBuy (l ++ [t]) := by
  cases l with
  | nil => exact ht rfl
  | cons a r => exact h

theorem validBars_close_pos (bars : List MarketData) :
    ∀ b ∈ validBarsOf bars, 0 < b.close := by
  intro b hb
  rw [validBarsOf, List.mem_filter] at hb
  have h2 := hb.2
  simp [isValidBar] at h2
  exact h2.1

theorem getD_mem_of_lt (valid : List MarketData) (i : ℕ) (hi : i < valid.length) :
    valid.getD i default ∈ valid := by
  rw [List.getD_eq_getElem?_getD, List.getElem?_eq_getElem hi]
  exact List.getElem_mem hi

theorem stepBar_inv (p : BacktestParameters) (valid : List MarketData)
    (maS maL rsi : List ℚ) (hps : 0 < p.position_size) (hps1 : p.position_size ≤ 1)
    (hval : ∀ b ∈ valid, 0 < b.close) (s : LoopState) (i : ℕ) (hi : i < valid.length)
    (h : TradeInv s) : TradeInv (stepBar p valid maS maL rsi s i) := by
  by_cases hskip : maS.getD i 0 = 0 ∨ maL.getD i 0 = 0
  · rw [stepBar_skip p valid maS maL rsi s i hskip]; exact h
  · have hprice : 0 < (valid.getD i default).close :=
      hval _ (getD_mem_of_lt valid i hi)
    obtain ⟨halt, hhead, hstate⟩ := h
    simp only [stepBar, if_neg hskip]
    split
    · -- BUY branch: the guard contains `s.position = 0`
      rename_i hcond
      obtain ⟨hbull, hpos0⟩ := hcond
      rcases hstate with ⟨hp0, hc, hlast⟩ | ⟨hpgt, _, _⟩
      · have hq : 0 < s.capital * p.position_size / (valid.getD i default).close :=
          div_pos (mul_pos hc hps) hprice
        refine ⟨?_, ?_, Or.inr ⟨hq, ?_, ?_⟩⟩
        · apply alternates_append _ _ halt
          intro x hx
          rcases hlast with hnil | hsell
          · rw [hnil] at hx; simp at hx
          · rw [hx] at hsell
            simp at hsell
            simp [hsell]
        · exact headIsBuy_concat _ _ hhead fun _ => rfl
        · have hmul : s.capital * p.position_size / (valid.getD i default).close *
              (valid.getD i default).close = s.capital * p.position_size :=
            div_mul_cancel₀ _ (ne_of_gt hprice)
          have hnn : 0 ≤ s.capital * (1 - p.position_size) :=
            mul_nonneg hc.le (by linarith)
          simp only [hmul]
          nlinarith
        · simp [List.getLast?_concat]
      · rw [hpos0] at hpgt
        exact absurd hpgt (lt_irrefl 0)
    · split <;> split
      all_goals
        first
        | -- SELL branch: the guard contains `0 < s.position`
          (rename_i hcond
           obtain ⟨hbear, hposGt⟩ := hcond
           rcases hstate with ⟨hp0, _, _⟩ | ⟨hpgt, hc0, hlastB⟩
           · rw [hp0] at hposGt
             exact absurd hposGt (lt_irrefl 0)
           · refine ⟨?_, ?_, Or.inl ⟨rfl, ?_, Or.inr ?_⟩⟩
             · apply alternates_append _ _ halt
               intro x hx
               rw [hx] at hlastB
               simp at hlastB
               simp [hlastB]
             · apply headIsBuy_concat _ _ hhead
               intro hnil
               rw [hnil] at hlastB
               simp at hlastB
             · exact add_pos_of_nonneg_of_pos hc0 (mul_pos hposGt hprice)
             · simp [List.getLast?_concat])
        | -- unchanged except equity
          exact ⟨halt, hhead, hstate⟩

theorem foldl_stepBar_inv (p : BacktestParameters) (valid : List MarketData)
    (maS maL rsi : List ℚ) (hps : 0 < p.position_size) (hps1 : p.position_size ≤ 1)
    (hval : ∀ b ∈ valid, 0 < b.close) :
    ∀ (l : List ℕ) (s : LoopState), (∀ i ∈ l, i < valid.length) → TradeInv s →
      TradeInv (l.foldl (stepBar p valid maS maL rsi) s) := by
  intro l
  induction l with
  | nil => intro s _ h; exact h
  | cons a t ih =>
    intro s hlt h
    rw [List.foldl_cons]
    exact ih _ (fun i hi => hlt i (List.mem_cons_of_mem a hi))
      (stepBar_inv p valid maS maL rsi hps hps1 hval s a (hlt a (List.mem_cons_self a t)) h)

theorem signalState_inv (p : BacktestParameters) (valid : List MarketData)
    (hps : 0 < p.position_size) (hps1 : p.position_size ≤ 1)
    (hval : ∀ b ∈ valid, 0 < b.close) : TradeInv (signalState p valid) := by
  rw [signalState]
  apply foldl_stepBar_inv p valid _ _ _ hps hps1 hval
  · intro i hi
    rw [barRange, List.mem_range'] at hi
    obtain ⟨j, hj, rfl⟩ := hi
    omega
  · exact ⟨trivial, trivial, Or.inl ⟨rfl, by norm_num [signalInit], Or.inl rfl⟩⟩

/-! ## Case analysis of a successful backtest run -/

theorem backtestRun_cases (p : BacktestParameters) (bars : List MarketData) (rand : ℚ)
    (c : List ℚ) (t : List Trade) (h : backtestRun p bars rand = .ok (c, t)) :
    (2 ≤ (signalState p (validBarsOf bars)).trades.length ∧
      c = (signalState p (validBarsOf bars)).equity ∧
      t = (signalState p (validBarsOf bars)).trades) ∨
    ((signalState p (validBarsOf bars)).trades.length < 2 ∧
      ∃ buyBar sellBar,
        (validBarsOf bars)[(validBarsOf bars).length / 4]? = some buyBar ∧
        (validBarsOf bars)[min ((validBarsOf bars).length / 4 + 5 + (⌊rand * 3⌋).toNat)
            ((validBarsOf bars).length - 1)]? = some sellBar ∧
        c = fallbackCurve p (validBarsOf bars) ((validBarsOf bars).length / 4)
            (min ((validBarsOf bars).length / 4 + 5 + (⌊rand * 3⌋).toNat)
              ((validBarsOf bars).length - 1))
            (100000 * p.position_size / buyBar.close) buyBar.close sellBar.close ∧
        t = [⟨.BUY, buyBar.date.getD 0, buyBar.close,
                100000 * p.position_size / buyBar.close⟩,
             ⟨.SELL, sellBar.date.getD 0, sellBar.close,
                100000 * p.position_size / buyBar.close⟩]) := by
  simp only [backtestRun] at h
  split at h
  · exact absurd h (by simp)
  · split at h
    · exact absurd h (by simp)
    · split at h
      · rename_i hlt
        split at h
        · rename_i buyBar sellBar hb hs
          simp only [Except.ok.injEq, Prod.mk.injEq] at h
          exact Or.inr ⟨hlt, buyBar, sellBar, hb, hs, h.1.symm, h.2.symm⟩
        · exact absurd h (by simp)
      · rename_i hge
        simp only [Except.ok.injEq, Prod.mk.injEq] at h
        exact Or.inl ⟨by omega, h.1.symm, h.2.symm⟩

/-! ## Evaluation of the zigzag input (position_size = 0) -/

theorem validBars_zig : validBarsOf zigBars16 = zigBars16 := by
  norm_num [validBarsOf, isValidBar, zigBars16, mkBar, List.filter]

set_option maxHeartbeats 1000000 in
theorem maS_zig : maShortOf pZig zigBars16 =
    [0, 99, 99, 99, 99, 99, 99, 99, 99, 99, 197/2, 199/2, 201/2, 203/2, 205/2, 207/2] := by
  norm_num [maShortOf, pZig, calculateMA, maWindow, validClose, zigBars16, mkBar,
    List.range_succ, List.filterMap_cons, List.getElem?_cons_zero, List.getElem?_cons_succ]

set_option maxHeartbeats 1000000 in
theorem maL_zig : maLongOf pZig zigBars16 =
    [0, 0, 298/3, 296/3, 298/3, 296/3, 298/3, 296/3, 298/3, 296/3, 99, 99, 100,
     101, 102, 103] := by
  norm_num [maLongOf, pZig, calculateMA, maWindow, validClose, zigBars16, mkBar,
    List.range_succ, List.filterMap_cons, List.getElem?_cons_zero, List.getElem?_cons_succ]

set_option maxHeartbeats 1000000 in
theorem rsi_zig : rsiOf zigBars16 =
    [50, 50, 50, 50, 50, 50, 50, 50, 50, 50, 50, 50, 50, 50, 1300/23, 700/11] := by
  norm_num [rsiOf, adjustLen, calculateRSI, gainsOf, lossesOf, priceChanges, rsiValue,
    zigBars16, mkBar, List.range_succ, List.zip, List.zipWith, List.filterMap_cons]

set_option maxHeartbeats 1000000 in
theorem signal_zig : signalState pZig zigBars16 =
    { capital := 100000, position := 0, lastBuyIndex := 15,
      trades := [⟨.BUY, 1209600000, 103, 0⟩, ⟨.BUY, 1296000000, 104, 0⟩],
      equity := [100000, 100000, 100000] } := by
  rw [signalState, maS_zig, maL_zig, rsi_zig]
  norm_num [barRange, startIndexOf, pZig, zigBars16, mkBar, List.range', stepBar,
    signalInit, jsOr, List.getD_cons_zero, List.getD_cons_succ]

theorem run_zig : backtestRun pZig zigBars16 0 =
    .ok ([100000, 100000, 100000],
      [⟨.BUY, 1209600000, 103, 0⟩, ⟨.BUY, 1296000000, 104, 0⟩]) := by
  simp only [backtestRun, validBars_zig, signal_zig]
  norm_num [zigBars16, mkBar, pZig]

/-! ## Claim C8 -/

/-- C8 fails as stated: with `position_size = 0` a BUY leaves the position
flat, so on `zigBars16` the signal loop fires the bullish signal on the
last two bars and logs two consecutive BUYs; the run succeeds (two trades,
so the fallback does not replace the log) and the returned trade log does
not alternate. -/
theorem c8_counterexample :
    backtestRun pZig zigBars16 0 =
      .ok ([100000, 100000, 100000],
        [⟨.BUY, 1209600000, 103, 0⟩, ⟨.BUY, 1296000000, 104, 0⟩]) ∧
    ¬ alternates [⟨.BUY, 1209600000, 103, 0⟩, (⟨.BUY, 1296000000, 104, 0⟩ : Trade)] := by
  refine ⟨run_zig, ?_⟩
  intro h
  exact absurd rfl h.1

/-- C8 (amended): provided `0 < position_size ≤ 1`, the trade log of every
successful run of `backtest` — from the signal loop or the fallback —
strictly alternates BUY, SELL, BUY, … starting with a BUY.  (With
`position_size = 0` the signal loop can log repeated BUYs, since a BUY of
zero quantity leaves the position flat.) -/
theorem c8_alternation_amended (p : BacktestParameters) (bars : List MarketData) (rand : ℚ)
    (c : List ℚ) (t : List Trade)
    (hps : 0 < p.position_size) (hps1 : p.position_size ≤ 1)
    (h : backtestRun p bars rand = .ok (c, t)) :
    alternates t ∧ headIsBuy t := by
  rcases backtestRun_cases p bars rand c t h with ⟨_, _, ht⟩ | ⟨_, bB, sB, _, _, _, ht⟩
  · subst ht
    have hinv := signalState_inv p (validBarsOf bars) hps hps1 (validBars_close_pos bars)
    exact ⟨hinv.1, hinv.2.1⟩
  · subst ht
    exact ⟨⟨by simp, trivial⟩, rfl⟩

/-- Witness for `c8_alternation_amended` on the flat input (fallback
path). -/
theorem c8_alternation_amended_witness :
    0 < pFlat.position_size ∧ pFlat.position_size ≤ 1 ∧
    (alternates [⟨.BUY, 345600000, 100, 150⟩, (⟨.SELL, 777600000, 100, 150⟩ : Trade)] ∧
      headIsBuy [⟨.BUY, 345600000, 100, 150⟩, (⟨.SELL, 777600000, 100, 150⟩ : Trade)]) :=
  ⟨by norm_num [pFlat], by norm_num [pFlat],
    c8_alternation_amended pFlat flatBars16 0 _ _
      (by norm_num [pFlat]) (by norm_num [pFlat]) run_flat⟩

/-! ## Claim C5 -/

theorem foldl_pairStep_fst_mono :
    ∀ (l : List (Trade × Trade)) (st : ℕ × ℕ),
      st.1 ≤ (l.foldl (fun s pr =>
        if pr.1.ttype = .BUY ∧ pr.2.ttype = .SELL then
          (s.1 + 1, if pr.1.price < pr.2.price then s.2 + 1 else s.2)
        else s) st).1 := by
  intro l
  induction l with
  | nil => intro st; exact le_rfl
  | cons a t ih =>
    intro st
    rw [List.foldl_cons]
    refine le_trans ?_ (ih _)
    split
    · simp
    · exact le_rfl

theorem pairStats_pos_of_alt (l : List Trade) (halt : alternates l) (hhead : headIsBuy l)
    (hlen : 2 ≤ l.length) : 1 ≤ (pairStats l).1 := by
  cases l with
  | nil => simp at hlen
  | cons a r =>
    cases r with
    | nil => simp at hlen
    | cons b r2 =>
      have ha : a.ttype = .BUY := hhead
      have hne : a.ttype ≠ b.ttype := halt.1
      have hb : b.ttype = .SELL := by
        cases hbt : b.ttype
        · rw [ha, hbt] at hne; exact absurd rfl hne
        · rfl
      rw [pairStats]
      simp only [List.tail_cons, List.zip_cons_cons, List.foldl_cons]
      rw [if_pos ⟨ha, hb⟩]
      exact le_trans (by norm_num) (foldl_pairStep_fst_mono _ _)

theorem backtestRun_isOk (p : BacktestParameters) (bars : List MarketData) (rand : ℚ)
    (hml : p.ma_long ≤ (validBarsOf bars).length)
    (hn : 1 ≤ (validBarsOf bars).length) :
    ∃ r, backtestRun p bars rand = .ok r := by
  have hbars : ¬(bars.length = 0) := by
    have hle : (validBarsOf bars).length ≤ bars.length := List.length_filter_le _ _
    omega
  simp only [backtestRun]
  rw [if_neg hbars, if_neg (by omega : ¬((validBarsOf bars).length < p.ma_long))]
  by_cases ht : (signalState p (validBarsOf bars)).trades.length < 2
  · rw [if_pos ht]
    have hb : (validBarsOf bars).length / 4 < (validBarsOf bars).length :=
      Nat.div_lt_self (by omega) (by norm_num)
    have hs : min ((validBarsOf bars).length / 4 + 5 + (⌊rand * 3⌋).toNat)
        ((validBarsOf bars).length - 1) < (validBarsOf bars).length := by
      have := Nat.min_le_right ((validBarsOf bars).length / 4 + 5 + (⌊rand * 3⌋).toNat)
        ((validBarsOf bars).length - 1)
      omega
    rw [List.getElem?_eq_getElem hb, List.getElem?_eq_getElem hs]
    exact ⟨_, rfl⟩
  · rw [if_neg ht]
    exact ⟨_, rfl⟩

/-- C5 fails as stated: `zigBars16` has 16 valid bars, at least
`ma_long = 3`, and the run succeeds, yet the returned metrics report
`num_trades = 0`: with `position_size = 0` the signal loop logs two BUYs
(so the fallback does not fire) and no completed BUY→SELL pair exists. -/
theorem c5_counterexample :
    (backtest pZig zigBars16 0).toOption.map StrategyMetrics.num_trades = some 0 := by
  rw [backtest, run_zig]
  norm_num [Except.map, Except.toOption, metrics_num_trades, pairStats]
  decide

/-- C5 (amended): for every strategy whose `position_size` lies in (0, 1]
and every bar sequence with at least one valid bar and at least `ma_long`
valid bars, `backtest` returns metrics with `num_trades ≥ 1`: the signal
loop either yields ≥ 2 alternating trades (so at least one completed
BUY→SELL pair) or the fallback synthesizes exactly one pair. -/
theorem c5_num_trades_amended (p : BacktestParameters) (bars : List MarketData) (rand : ℚ)
    (hml : p.ma_long ≤ (validBarsOf bars).length)
    (hn : 1 ≤ (validBarsOf bars).length)
    (hps : 0 < p.position_size) (hps1 : p.position_size ≤ 1) :
    ∃ m, backtest p bars rand = .ok m ∧ 1 ≤ m.num_trades := by
  obtain ⟨⟨c, t⟩, hr⟩ := backtestRun_isOk p bars rand hml hn
  refine ⟨calculateMetrics c t, by rw [backtest, hr]; rfl, ?_⟩
  rw [metrics_num_trades]
  rcases backtestRun_cases p bars rand c t hr with ⟨hlen, _, ht⟩ | ⟨_, bB, sB, _, _, _, ht⟩
  · subst ht
    have hinv := signalState_inv p (validBarsOf bars) hps hps1 (validBars_close_pos bars)
    exact pairStats_pos_of_alt _ hinv.1 hinv.2.1 hlen
  · subst ht
    norm_num [pairStats]

/-- Witness for `c5_num_trades_amended` on the flat input. -/
theorem c5_num_trades_amended_witness :
    pFlat.ma_long ≤ (validBarsOf flatBars16).length ∧
    1 ≤ (validBarsOf flatBars16).length ∧
    0 < pFlat.position_size ∧ pFlat.position_size ≤ 1 ∧
    ∃ m, backtest pFlat flatBars16 0 = .ok m ∧ 1 ≤ m.num_trades :=
  ⟨by rw [validBars_flat, flat_len]; norm_num [pFlat],
    by rw [validBars_flat, flat_len]; norm_num,
    by norm_num [pFlat], by norm_num [pFlat],
    c5_num_trades_amended pFlat flatBars16 0
      (by rw [validBars_flat, flat_len]; norm_num [pFlat])
      (by rw [validBars_flat, flat_len]; norm_num)
      (by norm_num [pFlat]) (by norm_num [pFlat])⟩

/-! ## Claim C3 -/

/-- C3 fails as stated: on `pFlat` over `flatBars16` the fallback runs,
both bars from `startIndex = 14` are processed into the rebuilt curve, and
the curve passed to the metrics calculation has length 2 — the number of
bars processed — with no extra initial entry, not length 2 + 1. -/
theorem c3_counterexample :
    backtestRun pFlat flatBars16 0 =
      .ok ([100000, 100000],
        [⟨.BUY, 345600000, 100, 150⟩, ⟨.SELL, 777600000, 100, 150⟩]) ∧
    ([100000, 100000] : List ℚ).length ≠
      (flatBars16.length - startIndexOf pFlat) + 1 := by
  refine ⟨run_flat, ?_⟩
  norm_num [flat_len, startIndexOf, pFlat]

/-- C3 (amended): for every successful run, on the signal path (the loop
produced at least 2 trades) the final equity curve is one initial entry
equal to the starting capital 100000 followed by one entry per processed
bar (bars from `startIndex` whose two moving-average reads are nonzero);
on the fallback path the rebuilt curve has exactly one entry per bar from
`startIndex` to the end, with no initial starting-capital entry
prepended. -/
theorem c3_curve_length_amended (p : BacktestParameters) (bars : List MarketData) (rand : ℚ)
    (c : List ℚ) (t : List Trade) (h : backtestRun p bars rand = .ok (c, t)) :
    (2 ≤ (signalState p (validBarsOf bars)).trades.length →
      c.head? = some 100000 ∧ c.length = processedCount p (validBarsOf bars) + 1) ∧
    ((signalState p (validBarsOf bars)).trades.length < 2 →
      c.length = (validBarsOf bars).length - startIndexOf p) := by
  rcases backtestRun_cases p bars rand c t h with ⟨hge, hc, _⟩ | ⟨hlt, bB, sB, _, _, hc, _⟩
  · constructor
    · intro _
      subst hc
      obtain ⟨u, hu, hl⟩ := signalState_equity p (validBarsOf bars)
      exact ⟨by rw [hu]; rfl, hl⟩
    · intro hlt
      omega
  · constructor
    · intro hge
      omega
    · intro _
      subst hc
      rw [fallbackCurve]
      rw [foldl_fbStep_len]
      simp [barRange]

/-- Witness for `c3_curve_length_amended` on the flat input. -/
theorem c3_curve_length_amended_witness :
    backtestRun pFlat flatBars16 0 =
      .ok ([100000, 100000],
        [⟨.BUY, 345600000, 100, 150⟩, ⟨.SELL, 777600000, 100, 150⟩]) ∧
    ((2 ≤ (signalState pFlat (validBarsOf flatBars16)).trades.length →
        ([100000, 100000] : List ℚ).head? = some 100000 ∧
        ([100000, 100000] : List ℚ).length =
          processedCount pFlat (validBarsOf flatBars16) + 1) ∧
      ((signalState pFlat (validBarsOf flatBars16)).trades.length < 2 →
        ([100000, 100000] : List ℚ).length =
          (validBarsOf flatBars16).length - startIndexOf pFlat)) :=
  ⟨run_flat, c3_curve_length_amended pFlat flatBars16 0 _ _ run_flat⟩

/-! ## Claim C10 -/

theorem total_return_of_constant (c : List ℚ) (hc : ∀ e ∈ c, e = (100000 : ℚ))
    (t : List Trade) : (calculateMetrics c t).total_return = 10 := by
  rw [metrics_total_return_eq]
  have hI : amInitial c = 100000 := by
    cases c with
    | nil => rfl
    | cons h r =>
      have hh : h = 100000 := hc h (List.mem_cons_self h r)
      simp [amInitial, hh]
  have hF : amFinal c = 100000 := by
    cases hcl : c.getLast? with
    | none => simp [amFinal, hcl, hI]
    | some e =>
      have he : e = 100000 := hc e (List.mem_of_getLast?_eq_some hcl)
      simp [amFinal, hcl, he]
  rw [hI, hF]
  norm_num

/-- C10 (implicit claim): whenever the fallback triggers (the signal loop
produced fewer than 2 trades) on a run that succeeds, and the synthesized
BUY index `⌊0.25 n⌋` is strictly below the start index `max(ma_long, 14)`,
the rebuilt equity curve applies neither synthesized trade — every entry
equals the starting capital 100000, and the curve is empty when the start
index is at least `n` — so `total_return` is exactly 10, while
`num_trades = 1` is still reported for trades that never affected
equity. -/
theorem c10_inert_fallback (p : BacktestParameters) (bars : List MarketData) (rand : ℚ)
    (hml : p.ma_long ≤ (validBarsOf bars).length)
    (hn : 1 ≤ (validBarsOf bars).length)
    (hfb : (signalState p (validBarsOf bars)).trades.length < 2)
    (hbi : (validBarsOf bars).length / 4 < startIndexOf p) :
    ∃ c t, backtestRun p bars rand = .ok (c, t) ∧
      (∀ e ∈ c, e = (100000 : ℚ)) ∧
      ((validBarsOf bars).length ≤ startIndexOf p → c = []) ∧
      (backtest p bars rand).toOption.map StrategyMetrics.total_return = some 10 ∧
      (backtest p bars rand).toOption.map StrategyMetrics.num_trades = some 1 := by
  obtain ⟨⟨c, t⟩, hr⟩ := backtestRun_isOk p bars rand hml hn
  rcases backtestRun_cases p bars rand c t hr with ⟨hge, _, _⟩ | ⟨_, bB, sB, _, _, hc, ht⟩
  · omega
  · have hcurve : c =
        List.replicate ((validBarsOf bars).length - startIndexOf p) (100000 : ℚ) := by
      rw [hc, fallbackCurve, foldl_fbStep_inert]
      · simp [barRange]
      · intro i hi
        rw [barRange, List.mem_range'] at hi
        obtain ⟨j, hj, rfl⟩ := hi
        omega
    have hmem : ∀ e ∈ c, e = (100000 : ℚ) := by
      intro e he
      rw [hcurve] at he
      exact List.eq_of_mem_replicate he
    refine ⟨c, t, hr, hmem, ?_, ?_, ?_⟩
    · intro hle
      rw [hcurve]
      have : (validBarsOf bars).length - startIndexOf p = 0 := by omega
      rw [this]
      rfl
    · rw [backtest, hr]
      simp only [Except.map, Except.toOption, Option.map]
      rw [total_return_of_constant c hmem t]
    · rw [backtest, hr]
      simp only [Except.map, Except.toOption, Option.map]
      rw [metrics_num_trades, ht]
      norm_num [pairStats]

/-- Witness for `c10_inert_fallback` on the flat input: 16 valid bars, buy
index 4, start index 14. -/
theorem c10_inert_fallback_witness :
    pFlat.ma_long ≤ (validBarsOf flatBars16).length ∧
    1 ≤ (validBarsOf flatBars16).length ∧
    (signalState pFlat (validBarsOf flatBars16)).trades.length < 2 ∧
    (validBarsOf flatBars16).length / 4 < startIndexOf pFlat ∧
    ∃ c t, backtestRun pFlat flatBars16 0 = .ok (c, t) ∧
      (∀ e ∈ c, e = (100000 : ℚ)) ∧
      ((validBarsOf flatBars16).length ≤ startIndexOf pFlat → c = []) ∧
      (backtest pFlat flatBars16 0).toOption.map StrategyMetrics.total_return = some 10 ∧
      (backtest pFlat flatBars16 0).toOption.map StrategyMetrics.num_trades = some 1 :=
  ⟨by rw [validBars_flat, flat_len]; norm_num [pFlat],
    by rw [validBars_flat, flat_len]; norm_num,
    by rw [validBars_flat, signal_flat]; norm_num,
    by rw [validBars_flat, flat_len]; norm_num [startIndexOf, pFlat],
    c10_inert_fallback pFlat flatBars16 0
      (by rw [validBars_flat, flat_len]; norm_num [pFlat])
      (by rw [validBars_flat, flat_len]; norm_num)
      (by rw [validBars_flat, signal_flat]; norm_num)
      (by rw [validBars_flat, flat_len]; norm_num [startIndexOf, pFlat])⟩

/-! ## Claim C2 -/

/-- C2 (amended): `backtest` is deterministic given its inputs *and* the
`Math.random` draw; the result is independent of the draw exactly when the
signal loop produces at least 2 trades.  On the fallback path the sell
index consumes a `Math.random` draw (strategy.ts:200), so randomization is
not confined to `generateVariants` and `generateSampleData`. -/
theorem c2_signal_path_rand_independent (p : BacktestParameters) (bars : List MarketData)
    (r1 r2 : ℚ) (h : 2 ≤ (signalState p (validBarsOf bars)).trades.length) :
    backtest p bars r1 = backtest p bars r2 := by
  rw [backtest, backtest]
  have hrun : backtestRun p bars r1 = backtestRun p bars r2 := by
    simp only [backtestRun]
    by_cases h0 : bars.length = 0
    · rw [if_pos h0, if_pos h0]
    · rw [if_neg h0, if_neg h0]
      by_cases h1 : (validBarsOf bars).length < p.ma_long
      · rw [if_pos h1, if_pos h1]
      · rw [if_neg h1, if_neg h1,
          if_neg (by omega : ¬((signalState p (validBarsOf bars)).trades.length < 2)),
          if_neg (by omega : ¬((signalState p (validBarsOf bars)).trades.length < 2))]
  rw [hrun]

/-- Witness for `c2_signal_path_rand_independent` on the zigzag input,
whose signal loop logs 2 trades. -/
theorem c2_signal_path_rand_independent_witness :
    2 ≤ (signalState pZig (validBarsOf zigBars16)).trades.length ∧
    backtest pZig zigBars16 0 = backtest pZig zigBars16 1 :=
  ⟨by rw [validBars_zig, signal_zig]; norm_num,
    c2_signal_path_rand_independent pZig zigBars16 0 1
      (by rw [validBars_zig, signal_zig]; norm_num)⟩

/-! ## Evaluation of the jump input (fallback with price spike) -/

theorem validBars_jump : validBarsOf jumpBars16 = jumpBars16 := by
  norm_num [validBarsOf, isValidBar, jumpBars16, mkBar, List.filter]

set_option maxHeartbeats 1000000 in
theorem maSL_jump : maShortOf pJump jumpBars16 = maLongOf pJump jumpBars16 ∧
    maLongOf pJump jumpBars16 =
      [0, 100, 100, 100, 100, 100, 100, 100, 100, 100, 100, 150, 150, 100, 100, 100] := by
  constructor
  · rfl
  · norm_num [maLongOf, pJump, calculateMA, maWindow, validClose, jumpBars16, mkBar,
      List.range_succ, List.filterMap_cons, List.getElem?_cons_zero, List.getElem?_cons_succ]

set_option maxHeartbeats 2000000 in
theorem rsi_jump : rsiOf jumpBars16 =
    [50, 50, 50, 50, 50, 50, 50, 50, 50, 50, 50, 50, 50, 50, 50, 50] := by
  norm_num [rsiOf, adjustLen, calculateRSI, gainsOf, lossesOf, priceChanges, rsiValue,
    jumpBars16, mkBar, List.range_succ, List.zip, List.zipWith, List.filterMap_cons]

set_option maxHeartbeats 1000000 in
theorem signal_jump : signalState pJump jumpBars16 =
    { capital := 100000, position := 0, lastBuyIndex := -1, trades := [],
      equity := [100000, 100000, 100000] } := by
  rw [signalState, maSL_jump.1, maSL_jump.2, rsi_jump]
  norm_num [barRange, startIndexOf, pJump, jumpBars16, mkBar, List.range', stepBar,
    signalInit, jsOr, List.getD_cons_zero, List.getD_cons_succ]

set_option maxHeartbeats 1000000 in
theorem run_jump0 : backtestRun pJump jumpBars16 0 =
    .ok ([100000, 100000],
      [⟨.BUY, 345600000, 100, 150⟩, ⟨.SELL, 777600000, 100, 150⟩]) := by
  simp only [backtestRun, validBars_jump, signal_jump]
  norm_num [fallbackCurve, fbStep, barRange, startIndexOf, pJump, List.range',
    Nat.min_def, jumpBars16, mkBar, List.getD_cons_zero, List.getD_cons_succ,
    List.getElem?_cons_zero, List.getElem?_cons_succ]

set_option maxHeartbeats 1000000 in
theorem run_jump2 : backtestRun pJump jumpBars16 (5/6) =
    .ok ([100000, 100000],
      [⟨.BUY, 345600000, 100, 150⟩, ⟨.SELL, 950400000, 200, 150⟩]) := by
  simp only [backtestRun, validBars_jump, signal_jump]
  norm_num [fallbackCurve, fbStep, barRange, startIndexOf, pJump, List.range',
    Nat.min_def, Int.toNat, jumpBars16, mkBar, List.getD_cons_zero, List.getD_cons_succ,
    List.getElem?_cons_zero, List.getElem?_cons_succ]

theorem backtest_jump0 : backtest pJump jumpBars16 0 =
    .ok { sharpe_ratio := 1, total_return := 10, max_drawdown := 0, win_rate := 60,
          avg_trade_duration := 5, num_trades := 1 } := by
  rw [backtest, run_jump0]
  simp only [Except.map]
  congr 1
  norm_num [calculateMetrics, dailyReturns, maxDrawdownRaw, ddStep, pairStats, durStats,
    jsOr, max_def, min_def]

theorem backtest_jump2 : backtest pJump jumpBars16 (5/6) =
    .ok { sharpe_ratio := 1, total_return := 10, max_drawdown := 0, win_rate := 75,
          avg_trade_duration := 7, num_trades := 1 } := by
  rw [backtest, run_jump2]
  simp only [Except.map]
  congr 1
  norm_num [calculateMetrics, dailyReturns, maxDrawdownRaw, ddStep, pairStats, durStats,
    jsOr, max_def, min_def]

/-- C2 fails as stated: on `pJump` over `jumpBars16` the fallback path is
taken, and the `Math.random` draw chooses the forced sell index — draw 0
sells at bar 9 (price 100, 5-day hold, win rate 60), draw 5/6 sells at bar
11 (price 200, 7-day hold, win rate 75) — so two calls of `backtest` on
identical market inputs return different metrics. -/
theorem c2_counterexample :
    backtest pJump jumpBars16 0 ≠ backtest pJump jumpBars16 (5/6) := by
  rw [backtest_jump0, backtest_jump2]
  intro h
  simp only [Except.ok.injEq, StrategyMetrics.mk.injEq] at h
  exact absurd h.2.2.2.1 (by norm_num)

/-! ## Claim C4 -/

theorem backtestRun_empty (p : BacktestParameters) (bars : List MarketData) (rand : ℚ)
    (h : bars = []) : backtestRun p bars rand = .error .emptyMarketData := by
  subst h
  rfl

theorem backtestRun_insufficient (p : BacktestParameters) (bars : List MarketData)
    (rand : ℚ) (hb : bars ≠ []) (h : (validBarsOf bars).length < p.ma_long) :
    backtestRun p bars rand = .error .insufficientData := by
  simp only [backtestRun]
  rw [if_neg (by simpa [List.length_eq_zero] using hb), if_pos h]

theorem backtestRun_runtime (p : BacktestParameters) (bars : List MarketData) (rand : ℚ)
    (hb : bars ≠ []) (hml : p.ma_long ≤ (validBarsOf bars).length)
    (h0 : (validBarsOf bars).length = 0) :
    backtestRun p bars rand = .error .runtimeError := by
  have hvalid : validBarsOf bars = [] := List.length_eq_zero.mp h0
  simp only [backtestRun]
  rw [if_neg (by simpa [List.length_eq_zero] using hb), if_neg (by omega)]
  have hsig : (signalState p (validBarsOf bars)).trades = [] := by
    rw [hvalid]
    simp [signalState, barRange, signalInit]
  rw [if_pos (by rw [hsig]; norm_num)]
  rw [hvalid]
  rfl

/-- C4 fails as stated: `badBars` is the nonempty list of one invalid bar
(close 0), and `pBad.ma_long = 0`, so neither `EmptyMarketData` nor
`InsufficientData` fires — the valid-bar count 0 is not below
`ma_long = 0` — yet `backtest` does not return a metrics record: the
fallback dereferences the missing bar at index 0 of the empty valid list
(a TypeError in the source, `runtimeError` in the embedding). -/
theorem c4_counterexample :
    badBars ≠ [] ∧
    ¬((validBarsOf badBars).length < pBad.ma_long) ∧
    backtest pBad badBars 0 = .error .runtimeError := by
  have hvb : validBarsOf badBars = [] := by
    norm_num [validBarsOf, isValidBar, badBars, mkBar, List.filter]
  refine ⟨by simp [badBars], by rw [hvb]; norm_num [pBad], ?_⟩
  rw [backtest, backtestRun_runtime pBad badBars 0 (by simp [badBars])
    (by rw [hvb]; norm_num [pBad]) (by rw [hvb]; rfl)]
  rfl

/-- C4 (amended): `backtest` fails with `EmptyMarketData` exactly when
`bars` is empty, with `InsufficientData` exactly when `bars` is nonempty
and the valid-bar count is below `ma_long`, and — beyond the claim's two
cases — crashes (`runtimeError`: the source dereferences `undefined` in
the fallback) exactly when `bars` is nonempty, all its bars are invalid
and `ma_long = 0` lets the zero count pass the insufficiency check; in
every other case (nonempty `bars`, at least one valid bar, count at least
`ma_long`) it returns a `StrategyMetrics` record. -/
theorem c4_error_classification (p : BacktestParameters) (bars : List MarketData)
    (rand : ℚ) :
    (backtest p bars rand = .error .emptyMarketData ↔ bars = []) ∧
    (backtest p bars rand = .error .insufficientData ↔
      bars ≠ [] ∧ (validBarsOf bars).length < p.ma_long) ∧
    (backtest p bars rand = .error .runtimeError ↔
      bars ≠ [] ∧ p.ma_long ≤ (validBarsOf bars).length ∧
        (validBarsOf bars).length = 0) ∧
    ((∃ m, backtest p bars rand = .ok m) ↔
      bars ≠ [] ∧ p.ma_long ≤ (validBarsOf bars).length ∧
        1 ≤ (validBarsOf bars).length) := by
  rcases eq_or_ne bars [] with hb | hb
  · have hbt : backtest p bars rand = .error .emptyMarketData := by
      rw [backtest, backtestRun_empty p bars rand hb]
      rfl
    subst hb
    rw [hbt]
    simp [Except.error.injEq]
  · rcases Nat.lt_or_ge (validBarsOf bars).length p.ma_long with hlt | hge
    · have hbt : backtest p bars rand = .error .insufficientData := by
        rw [backtest, backtestRun_insufficient p bars rand hb hlt]
        rfl
      have h1 : ¬(p.ma_long ≤ (validBarsOf bars).length) := by omega
      rw [hbt]
      simp [hb, hlt, h1]
    · rcases Nat.eq_zero_or_pos (validBarsOf bars).length with h0 | hpos
      · have hbt : backtest p bars rand = .error .runtimeError := by
          rw [backtest, backtestRun_runtime p bars rand hb hge h0]
          rfl
        have h2 : ¬((validBarsOf bars).length < p.ma_long) := by omega
        have h4 : p.ma_long = 0 := by omega
        rw [hbt]
        simp [hb, hge, h0, h2, h4]
      · obtain ⟨r, hr⟩ := backtestRun_isOk p bars rand hge hpos
        have hbt : backtest p bars rand = .ok (calculateMetrics r.1 r.2) := by
          rw [backtest, hr]
          rfl
        have h2 : ¬((validBarsOf bars).length < p.ma_long) := by omega
        have h3 : ¬((validBarsOf bars).length = 0) := by omega
        have h5 : 1 ≤ (validBarsOf bars).length := hpos
        rw [hbt]
        simp [hb, hge, h2, h3, h5]
